import Mathlib

/-!
# segment-proxy: the routing Director of `main.go`

A shallow embedding of `src/main.go` (package `main`): the path joiner
`singleJoiningSlash`, the classifiers `isCDNURL` and `isAttributionURL`, the
mirror dispatch `copyRequestTo`, and the `director` closure built by
`NewSegmentReverseProxy`.

Go strings are byte strings, so they are modelled as lists of bytes. The
parts of the Go standard library the program calls (`strings.HasPrefix`,
`strings.HasSuffix`, `(*url.URL).String`, `ioutil.ReadAll`) are embedded next
to it; what `http.NewRequest` and `client.Do` answer is a parameter. A run of
the Director returns its effects: the request as rewritten, the lines logged,
the requests sent to the mirror, and whether it ended in a panic.
-/

namespace SegmentProxy

/-! ## Go strings -/

/-- A Go `string`: an immutable sequence of bytes. -/
abbrev GoString := List UInt8

/-- The Go string written as an ASCII literal. -/
def str (s : String) : GoString := s.data.map (fun c => UInt8.ofNat c.toNat)

/-- Go `strings.HasPrefix`:
`len(s) >= len(prefix) && s[:len(prefix)] == prefix`. -/
def HasPrefix (s pre : GoString) : Bool :=
  decide (pre.length ≤ s.length) && (s.take pre.length == pre)

/-- Go `strings.HasSuffix`:
`len(s) >= len(suffix) && s[len(s)-len(suffix):] == suffix`. -/
def HasSuffix (s suf : GoString) : Bool :=
  decide (suf.length ≤ s.length) && (s.drop (s.length - suf.length) == suf)

/-! ## `net/url`: the string form of a URL

`isCDNURL`, `isAttributionURL`, the attribution log line and the mirror
destination all go through `(*url.URL).String`, so the method is embedded
with the helpers it calls (`escape`, `shouldEscape`, `validEncoded`,
`unescape`, `EscapedPath`, `EscapedFragment`, `(*Userinfo).String`). -/

/-- The byte of an ASCII character. -/
def ch (c : Char) : UInt8 := UInt8.ofNat c.toNat

/-- Whether byte `c` is one of the bytes of `set`. -/
def byteIn (c : UInt8) (set : GoString) : Bool := set.contains c

/-- The `encoding` modes of `net/url`. -/
inductive encoding where
  | encodePath
  | encodePathSegment
  | encodeHost
  | encodeZone
  | encodeUserPassword
  | encodeQueryComponent
  | encodeFragment
  deriving DecidableEq

open encoding

/-- Go `url.shouldEscape`: whether byte `c` is written as `%XX` in the given
part of a URL. Byte 39 is the apostrophe and byte 34 the double quote. -/
def shouldEscape (c : UInt8) (mode : encoding) : Bool :=
  if (ch 'a' ≤ c ∧ c ≤ ch 'z') ∨ (ch 'A' ≤ c ∧ c ≤ ch 'Z') ∨ (ch '0' ≤ c ∧ c ≤ ch '9') then
    false
  else if (mode = encodeHost ∨ mode = encodeZone) ∧
      (byteIn c (str "!$&()*+,;=:[]<>") ∨ c = 39 ∨ c = 34) then
    false
  else if byteIn c (str "-_.~") then
    false
  else if byteIn c (str "$&+,/:;=?@") then
    match mode with
    | encodePath => c == ch '?'
    | encodePathSegment => c == ch '/' || c == ch ';' || c == ch ',' || c == ch '?'
    | encodeUserPassword => c == ch '@' || c == ch '/' || c == ch '?' || c == ch ':'
    | encodeQueryComponent => true
    | encodeFragment => false
    | _ => true
  else if mode = encodeFragment ∧ byteIn c (str "!()*") then
    false
  else
    true

/-- The table `upperhex` of `net/url`, indexed by a nibble. -/
def upperhex (n : Nat) : UInt8 := (str "0123456789ABCDEF").getD n 0

/-- Go `url.escape`: every byte that `shouldEscape` flags becomes `%XX`
(a space becomes `+` in query components), the others are copied. -/
def escape : GoString → encoding → GoString
  | [], _ => []
  | c :: s, mode =>
    if c = ch ' ' ∧ mode = encodeQueryComponent then
      ch '+' :: escape s mode
    else if shouldEscape c mode then
      ch '%' :: upperhex (c.toNat / 16) :: upperhex (c.toNat % 16) :: escape s mode
    else
      c :: escape s mode

/-- Go `url.ishex`. -/
def ishex (c : UInt8) : Bool :=
  (ch '0' ≤ c && c ≤ ch '9') || (ch 'a' ≤ c && c ≤ ch 'f') || (ch 'A' ≤ c && c ≤ ch 'F')

/-- Go `url.unhex`. -/
def unhex (c : UInt8) : UInt8 :=
  if ch '0' ≤ c ∧ c ≤ ch '9' then c - ch '0'
  else if ch 'a' ≤ c ∧ c ≤ ch 'f' then c - ch 'a' + 10
  else if ch 'A' ≤ c ∧ c ≤ ch 'F' then c - ch 'A' + 10
  else 0

/-- Go `url.unescape`; `none` stands for the returned error. -/
def unescape : GoString → encoding → Option GoString
  | [], _ => some []
  | c :: s, mode =>
    if c = ch '%' then
      match s with
      | h1 :: h2 :: rest =>
        if ishex h1 && ishex h2 then
          let v : UInt8 := UInt8.ofNat (((unhex h1).toNat * 16 + (unhex h2).toNat) % 256)
          if mode = encodeHost ∧ (unhex h1).toNat < 8 ∧ [c, h1, h2] ≠ str "%25" then none
          else if mode = encodeZone ∧ [c, h1, h2] ≠ str "%25" ∧ v ≠ ch ' ' ∧
              shouldEscape v encodeHost then none
          else (unescape rest mode).map (fun t => v :: t)
        else none
      | _ => none
    else if c = ch '+' then
      (unescape s mode).map
        (fun t => (if mode = encodeQueryComponent then ch ' ' else ch '+') :: t)
    else if (mode = encodeHost ∨ mode = encodeZone) ∧ c.toNat < 128 ∧
        shouldEscape c encodeHost then none
    else (unescape s mode).map (fun t => c :: t)

/-- Go `url.validEncoded`. Byte 39 is the apostrophe. -/
def validEncoded (s : GoString) (mode : encoding) : Bool :=
  s.all (fun c =>
    if byteIn c (str "!$&()*+,;=:@") ∨ c = 39 then true
    else if byteIn c (str "[]") then true
    else if c = ch '%' then true
    else !shouldEscape c mode)

/-- Go `url.Userinfo` (a `nil` pointer is `none` in `URL.User`). -/
structure Userinfo where
  username : GoString
  password : GoString
  passwordSet : Bool
  deriving DecidableEq

/-- Go `(*Userinfo).String` on a non-nil receiver. -/
def Userinfo.String (u : Userinfo) : GoString :=
  let s := escape u.username encodeUserPassword
  if u.passwordSet then s ++ str ":" ++ escape u.password encodeUserPassword else s

/-- Go `url.URL`. -/
structure URL where
  Scheme : GoString
  Opaque : GoString
  User : Option Userinfo
  Host : GoString
  Path : GoString
  RawPath : GoString
  OmitHost : Bool
  ForceQuery : Bool
  RawQuery : GoString
  Fragment : GoString
  RawFragment : GoString
  deriving DecidableEq

/-- Go `(*URL).EscapedPath`. -/
def URL.EscapedPath (u : URL) : GoString :=
  if u.RawPath ≠ [] ∧ validEncoded u.RawPath encodePath = true ∧
      unescape u.RawPath encodePath = some u.Path then
    u.RawPath
  else if u.Path = str "*" then
    str "*"
  else
    escape u.Path encodePath

/-- Go `(*URL).EscapedFragment`. -/
def URL.EscapedFragment (u : URL) : GoString :=
  if u.RawFragment ≠ [] ∧ validEncoded u.RawFragment encodeFragment = true ∧
      unescape u.RawFragment encodeFragment = some u.Fragment then
    u.RawFragment
  else
    escape u.Fragment encodeFragment

/-- Go `(*URL).String`, the buffer `buf` threaded through its statements:
`scheme:opaque?query#fragment` or `scheme://userinfo@host/path?query#fragment`. -/
def URL.String (u : URL) : GoString :=
  let buf : GoString := []
  let buf := if u.Scheme ≠ [] then buf ++ u.Scheme ++ str ":" else buf
  let buf :=
    if u.Opaque ≠ [] then buf ++ u.Opaque
    else
      let buf :=
        if u.Scheme ≠ [] ∨ u.Host ≠ [] ∨ u.User ≠ none then
          if u.OmitHost = true ∧ u.Host = [] ∧ u.User = none then buf
          else
            let buf :=
              if u.Host ≠ [] ∨ u.Path ≠ [] ∨ u.User ≠ none then buf ++ str "//" else buf
            let buf :=
              match u.User with
              | some ui => buf ++ ui.String ++ str "@"
              | none => buf
            if u.Host ≠ [] then buf ++ escape u.Host encodeHost else buf
        else buf
      let path := u.EscapedPath
      let buf :=
        if path ≠ [] ∧ path.head? ≠ some (ch '/') ∧ u.Host ≠ [] then buf ++ str "/" else buf
      let buf :=
        if buf.length = 0 ∧ byteIn (ch ':') (path.takeWhile (fun c => c ≠ ch '/')) = true then
          buf ++ str "./"
        else buf
      buf ++ path
  let buf := if u.ForceQuery = true ∨ u.RawQuery ≠ [] then buf ++ str "?" ++ u.RawQuery else buf
  let buf := if u.Fragment ≠ [] then buf ++ str "#" ++ u.EscapedFragment else buf
  buf

/-- The query part written by `String`. -/
def queryPart (u : URL) : GoString :=
  if u.ForceQuery = true ∨ u.RawQuery ≠ [] then str "?" ++ u.RawQuery else []

/-- The fragment part written by `String`. -/
def fragmentPart (u : URL) : GoString :=
  if u.Fragment ≠ [] then str "#" ++ u.EscapedFragment else []

/-- A URL as `url.ParseRequestURI` gives it for a request line in origin form
(`GET /path?query`): no scheme, opaque part, user or host, and a path whose
default escaping is the one received (`RawPath` empty). -/
def URL.isOriginForm (u : URL) : Prop :=
  u.Scheme = [] ∧ u.Opaque = [] ∧ u.User = none ∧ u.Host = [] ∧ u.RawPath = []

instance (u : URL) : Decidable u.isOriginForm := by
  unfold URL.isOriginForm; infer_instance

/-! ## `net/http` and `io`: requests, bodies and the mirror's outcomes -/

/-- Go `http.Header`, a map from header names to value lists. -/
abbrev Header := List (GoString × List GoString)

/-- The `io.ReadCloser` behind `Request.Body`: the bytes it still delivers, how
the stream ends, with `io.EOF` (`none`) or with a read error (`some msg`), and
what it answers to reads after that (`later`). The body of a request with a
`Content-Length` that breaks off early ends with `unexpected EOF` and answers
`io.EOF` from then on (`later = none`); a chunked body repeats its error. -/
structure BodyReader where
  data : GoString
  err : Option GoString
  later : Option GoString
  deriving DecidableEq

/-- Go `ioutil.ReadAll` on a non-nil reader: the bytes read, the error (`io.EOF`
is no error), and the reader as it is left, with nothing more to deliver. -/
def ReadAll (r : BodyReader) : GoString × Option GoString × BodyReader :=
  (r.data, r.err, { data := [], err := r.later, later := r.later })

/-- The reader `ioutil.NopCloser(bytes.NewReader(body))`. -/
def NewReader (body : GoString) : BodyReader :=
  { data := body, err := none, later := none }

/-- The fields of Go `http.Request` that main.go reads or writes. `Body` is an
interface value and may be `nil` (`none`): `httputil.ReverseProxy` hands the
Director a clone of the inbound request whose `Body` is `nil` when the
inbound `ContentLength` is 0. -/
structure Request where
  Method : GoString
  URL : URL
  Header : Header
  Body : Option BodyReader
  Host : GoString
  RequestURI : GoString
  deriving DecidableEq

/-- A request handed to `client.Do`, as `http.NewRequest` builds it and line 68
completes it: the method, the URL that `http.NewRequest` parsed from the string
it was given, the header, and the bytes of the body reader. -/
structure OutboundRequest where
  Method : GoString
  URL : URL
  Header : Header
  Body : GoString
  deriving DecidableEq

/-- What main.go leaves to the library and the network. `newRequest method url`
is the answer of `http.NewRequest(method, url, body)`: an error (an invalid
method, a string that `url.Parse` rejects), or the URL parsed from the string
`url`, which becomes the URL of the new request. `doErr req` is the error of
`client.Do(req)`; `none` is a `nil` error, `some msg` an error printing as
`msg`. -/
structure World where
  newRequest : GoString → GoString → Except GoString URL
  doErr : OutboundRequest → Option GoString

/-! ## `singleJoiningSlash` (main.go, lines 31-42) -/

/-- The function `singleJoiningSlash` of main.go; `b[1:]` is `b.drop 1`. -/
def singleJoiningSlash (a b : GoString) : GoString :=
  let aslash := HasSuffix a (str "/")
  let bslash := HasPrefix b (str "/")
  if aslash && bslash then a ++ b.drop 1
  else if !aslash && !bslash then a ++ str "/" ++ b
  else a ++ b

/-- The string `a` with one trailing `/` removed if present
(the wording of the path-join rule, not code of main.go). -/
def dropTrailingSlash (a : GoString) : GoString :=
  if HasSuffix a (str "/") then a.take (a.length - 1) else a

/-- The string `b` with one leading `/` removed if present
(the wording of the path-join rule, not code of main.go). -/
def dropLeadingSlash (b : GoString) : GoString :=
  if HasPrefix b (str "/") then b.drop 1 else b

/-! ## Classifiers (main.go, lines 44-52) -/

/-- The function `isCDNURL` of main.go. -/
def isCDNURL (url : URL) : Bool :=
  let urlStr := url.String
  HasPrefix urlStr (str "/v1/projects") || HasPrefix urlStr (str "/analytics.js/v1")

/-- The function `isAttributionURL` of main.go. -/
def isAttributionURL (url : URL) : Bool :=
  HasPrefix url.String (str "/v1/attribution")

/-! ## Mirror dispatch (main.go, lines 54-76) -/

/-- The effects of one call of `copyRequestTo`: the error it returns, the
request as it leaves it, and the requests it handed to `client.Do`. -/
structure CopyResult where
  err : Option GoString
  req : Request
  calls : List OutboundRequest

/-- The function `copyRequestTo` of main.go. The result `none` is the run-time
panic of `ioutil.ReadAll` on a `nil` body, raised before anything is changed.
`http.NewRequest` reads an empty method as `GET`. -/
def copyRequestTo (client : World) (url : URL) (req : Request) : Option CopyResult :=
  match req.Body with
  | none => none
  | some r =>
    let (body, err, r) := ReadAll r
    match err with
    | some e => some { err := some e, req := { req with Body := some r }, calls := [] }
    | none =>
      let req := { req with Body := some (NewReader body) }
      let destURI := url.String ++ req.RequestURI
      match client.newRequest req.Method destURI with
      | Except.error e => some { err := some e, req := req, calls := [] }
      | Except.ok parsed =>
        let proxyReq : OutboundRequest :=
          { Method := if req.Method = [] then str "GET" else req.Method, URL := parsed,
            Header := req.Header, Body := body }
        match client.doErr proxyReq with
        | some e => some { err := some e, req := req, calls := [proxyReq] }
        | none => some { err := none, req := req, calls := [proxyReq] }

/-! ## The Director (main.go, lines 82-128) -/

/-- The two upstreams a request can be sent to. -/
inductive Upstream where
  | CDN
  | TrackingAPI
  deriving DecidableEq

/-- The effects of one run of the Director: whether it ended in a panic, which
branch chose the target, the request as it is left (at the panic, if any), the
lines written with `log.Printf`, and the requests handed to `client.Do`. -/
structure DirectorResult where
  panicked : Bool
  target : Upstream
  req : Request
  log : List GoString
  calls : List OutboundRequest

/-- The text of `log.Printf("[INFO]: Got an attribution request: [%s]\n", ...)`,
without the time stamp the logger puts in front. -/
def attributionLine (urlStr : GoString) : GoString :=
  str "[INFO]: Got an attribution request: [" ++ urlStr ++ str "]\n"

/-- The text of `log.Printf("ERROR: Failed to mirror request to %s: %v\n", ...)`,
without the time stamp the logger puts in front. -/
def mirrorErrorLine (mirror err : GoString) : GoString :=
  str "ERROR: Failed to mirror request to " ++ mirror ++ str ": " ++ err ++ str "\n"

/-- The closure `director` of `NewSegmentReverseProxy`, for the targets `cdn`
and `trackingAPI` and the optional `mirrorHostURL` (`none` is `nil`). -/
def director (client : World) (cdn trackingAPI : URL) (mirrorHostURL : Option URL)
    (req : Request) : DirectorResult :=
  let (which, target, log) :=
    if isCDNURL req.URL then
      (Upstream.CDN, cdn, ([] : List GoString))
    else
      (Upstream.TrackingAPI, trackingAPI,
        if isAttributionURL req.URL then [attributionLine req.URL.String] else [])
  let targetQuery := target.RawQuery
  let req := { req with URL := { req.URL with Scheme := target.Scheme } }
  let req := { req with URL := { req.URL with Host := target.Host } }
  let req := { req with URL := { req.URL with Path := singleJoiningSlash target.Path req.URL.Path } }
  let req :=
    if targetQuery = [] ∨ req.URL.RawQuery = [] then
      { req with URL := { req.URL with RawQuery := targetQuery ++ req.URL.RawQuery } }
    else
      { req with URL := { req.URL with RawQuery := targetQuery ++ str "&" ++ req.URL.RawQuery } }
  let req := { req with Host := req.URL.Host }
  match mirrorHostURL with
  | none => { panicked := false, target := which, req := req, log := log, calls := [] }
  | some mirror =>
    match copyRequestTo client mirror req with
    | none => { panicked := true, target := which, req := req, log := log, calls := [] }
    | some r =>
      match r.err with
      | some err =>
        { panicked := false, target := which, req := r.req,
          log := log ++ [mirrorErrorLine mirror.String err], calls := r.calls }
      | none => { panicked := false, target := which, req := r.req, log := log, calls := r.calls }

/-- The configured URL of an upstream. -/
def Upstream.url (cdn trackingAPI : URL) : Upstream → URL
  | Upstream.CDN => cdn
  | Upstream.TrackingAPI => trackingAPI

/-! ## The proxy built by `main` (main.go, lines 18-20 and 82-150) -/

/-- The constant `mirrorHostEnv` of main.go. -/
def mirrorHostEnv : GoString := str "SEGMENT_MIRROR_HOST_ENV"

/-- The constant `segmentCDNHost` of main.go. -/
def segmentCDNHost : GoString := str "http://cdn.segment.com"

/-- The constant `segmentTrackingAPIHost` of main.go. -/
def segmentTrackingAPIHost : GoString := str "http://api.segment.io"

/-- The function `NewSegmentReverseProxy` of main.go, as the Director of the
`httputil.ReverseProxy` it returns. -/
def NewSegmentReverseProxy (client : World) (cdn trackingAPI : URL)
    (mirrorHostURL : Option URL) : Request → DirectorResult :=
  director client cdn trackingAPI mirrorHostURL

/-- The function `main` of main.go, as the Director of the proxy it serves:
`getenv` is `os.Getenv` and `parseURL` the function of main.go on the strings
it accepts (on the others it ends the process with `log.Fatalf`). -/
def main (getenv : GoString → GoString) (parseURL : GoString → URL) (client : World) :
    Request → DirectorResult :=
  let mirrorHost := getenv mirrorHostEnv
  let mirrorHostURL : Option URL :=
    if mirrorHost = [] then none else some (parseURL mirrorHost)
  NewSegmentReverseProxy client (parseURL segmentCDNHost) (parseURL segmentTrackingAPIHost)
    mirrorHostURL

/-! ## The Director, statement by statement

The values the Director computes on its way, named for the statements below. -/

/-- The target the Director rewrites the request for. -/
def chosenTarget (cdn trackingAPI : URL) (req : Request) : URL :=
  if isCDNURL req.URL then cdn else trackingAPI

/-- The upstream of the branch the Director takes. -/
def chosenUpstream (req : Request) : Upstream :=
  if isCDNURL req.URL then Upstream.CDN else Upstream.TrackingAPI

/-- The raw query the Director installs for target query `T` and request query `R`. -/
def mergedQuery (T R : GoString) : GoString :=
  if T = [] ∨ R = [] then T ++ R else T ++ str "&" ++ R

/-- The request after lines 103-115 of the Director. -/
def retargeted (cdn trackingAPI : URL) (req : Request) : Request :=
  { req with
    URL := { req.URL with
      Scheme := (chosenTarget cdn trackingAPI req).Scheme
      Host := (chosenTarget cdn trackingAPI req).Host
      Path := singleJoiningSlash (chosenTarget cdn trackingAPI req).Path req.URL.Path
      RawQuery := mergedQuery (chosenTarget cdn trackingAPI req).RawQuery req.URL.RawQuery }
    Host := (chosenTarget cdn trackingAPI req).Host }

/-- The lines logged by lines 89-101 of the Director. -/
def attributionLog (req : Request) : List GoString :=
  if isCDNURL req.URL then []
  else if isAttributionURL req.URL then [attributionLine req.URL.String] else []

/-- The mirror request built from request `req` whose body delivers `body`, when
`http.NewRequest` has parsed its destination as `parsed`. -/
def mirrorRequest (parsed : URL) (req : Request) (body : GoString) : OutboundRequest :=
  { Method := if req.Method = [] then str "GET" else req.Method,
    URL := parsed, Header := req.Header, Body := body }

/-- Whether a log line is an attribution event, that is, starts with the fixed
text of the attribution message. -/
def isAttributionLine (line : GoString) : Bool :=
  HasPrefix line (str "[INFO]: Got an attribution request: [")

/-! ## Example values -/

/-- The URL `scheme://host/path?rawQuery` as `url.Parse` returns it when the
path needs no escaping; an empty scheme and host give the origin form. -/
def mkURL (scheme host path rawQuery : GoString) : URL :=
  { Scheme := scheme, Opaque := [], User := none, Host := host, Path := path, RawPath := [],
    OmitHost := false, ForceQuery := false, RawQuery := rawQuery, Fragment := [],
    RawFragment := [] }

/-- A request with the given method, URL, request-URI and body, sent to the
proxy under the host name `proxy.example.com` with one header. -/
def mkRequest (method : GoString) (url : URL) (requestURI : GoString)
    (body : Option BodyReader) : Request :=
  { Method := method, URL := url, Header := [(str "Content-Type", [str "application/json"])],
    Body := body, Host := str "proxy.example.com", RequestURI := requestURI }

/-- The compiled-in CDN target, `parseURL("http://cdn.segment.com")`. -/
def segmentCDN : URL := mkURL (str "http") (str "cdn.segment.com") [] []

/-- The compiled-in Tracking-API target, `parseURL("http://api.segment.io")`. -/
def segmentTrackingAPI : URL := mkURL (str "http") (str "api.segment.io") [] []

/-- A mirror target, `parseURL("http://mirror.example.com")`. -/
def mirrorExample : URL := mkURL (str "http") (str "mirror.example.com") [] []

/-- A request body that delivers `data` and ends. -/
def wholeBody (data : GoString) : BodyReader :=
  { data := data, err := none, later := none }

/-- The body of a request that announces more bytes in `Content-Length` than the
`data` its sender delivers before breaking off. -/
def brokenBody (data : GoString) : BodyReader :=
  { data := data, err := some (str "unexpected EOF"), later := none }

/-- The answer of `http.NewRequest` for the one destination the examples send
to, `http://mirror.example.com/v1/attribution/report`, parsed as `url.Parse`
parses it; no example hands it another string. -/
def newRequestExample (_method url : GoString) : Except GoString URL :=
  if url = str "http://mirror.example.com/v1/attribution/report" then
    Except.ok (mkURL (str "http") (str "mirror.example.com") (str "/v1/attribution/report") [])
  else
    Except.error (str "destination outside the examples")

/-- A world in which the mirror request is built and sent without error. -/
def reachable : World :=
  { newRequest := newRequestExample, doErr := fun _ => none }

/-- A world in which the mirror request is built but cannot be sent. -/
def unreachable : World :=
  { newRequest := newRequestExample, doErr := fun _ => some (str "connection refused") }

/-! ## Lemmas on Go strings -/

theorem str_slash : str "/" = [47] := by decide

theorem hasPrefix_iff (s pre : GoString) : HasPrefix s pre = true ↔ pre <+: s := by
  unfold HasPrefix
  constructor
  · intro h
    simp only [Bool.and_eq_true, decide_eq_true_eq, beq_iff_eq] at h
    have e := List.take_append_drop pre.length s
    rw [h.2] at e
    exact ⟨_, e⟩
  · rintro ⟨t, rfl⟩
    simp

theorem hasSuffix_iff (s suf : GoString) : HasSuffix s suf = true ↔ suf <:+ s := by
  unfold HasSuffix
  constructor
  · intro h
    simp only [Bool.and_eq_true, decide_eq_true_eq, beq_iff_eq] at h
    have e := List.take_append_drop (s.length - suf.length) s
    rw [h.2] at e
    exact ⟨_, e⟩
  · rintro ⟨t, rfl⟩
    simp

theorem hasPrefix_slash_nil : HasPrefix [] [47] = false := by decide

theorem hasPrefix_slash_cons (h : UInt8) (t : GoString) :
    HasPrefix (h :: t) [47] = decide (h = 47) := by
  by_cases e : h = 47 <;> simp [HasPrefix, e]

theorem hasSuffix_slash_nil : HasSuffix [] [47] = false := by decide

theorem hasSuffix_slash_concat (i : GoString) (l : UInt8) :
    HasSuffix (i ++ [l]) [47] = decide (l = 47) := by
  by_cases e : l = 47 <;> simp [HasSuffix, e]

theorem dropTrailingSlash_nil : dropTrailingSlash [] = [] := by decide

theorem dropTrailingSlash_concat (i : GoString) (l : UInt8) :
    dropTrailingSlash (i ++ [l]) = if l = 47 then i else i ++ [l] := by
  simp [dropTrailingSlash, str_slash, hasSuffix_slash_concat]

theorem dropLeadingSlash_nil : dropLeadingSlash [] = [] := by decide

theorem dropLeadingSlash_cons (h : UInt8) (t : GoString) :
    dropLeadingSlash (h :: t) = if h = 47 then t else h :: t := by
  simp [dropLeadingSlash, str_slash, hasPrefix_slash_cons]

/-- Normal form of the join: one trailing slash of `a` and one leading slash
of `b` are dropped and a single `/` is put between the two. -/
theorem singleJoiningSlash_eq (a b : GoString) :
    singleJoiningSlash a b = dropTrailingSlash a ++ [47] ++ dropLeadingSlash b := by
  rcases List.eq_nil_or_concat a with rfl | ⟨i, l, rfl⟩
  · cases b with
    | nil => decide
    | cons h t =>
      rw [dropTrailingSlash_nil, dropLeadingSlash_cons]
      simp only [singleJoiningSlash, str_slash, hasSuffix_slash_nil, hasPrefix_slash_cons]
      by_cases e2 : h = 47 <;> simp [e2]
  · rw [List.concat_eq_append]
    cases b with
    | nil =>
      rw [dropTrailingSlash_concat, dropLeadingSlash_nil]
      simp only [singleJoiningSlash, str_slash, hasSuffix_slash_concat, hasPrefix_slash_nil]
      by_cases e : l = 47 <;> simp [e]
    | cons h t =>
      rw [dropTrailingSlash_concat, dropLeadingSlash_cons]
      simp only [singleJoiningSlash, str_slash, hasSuffix_slash_concat, hasPrefix_slash_cons]
      by_cases e : l = 47 <;> by_cases e2 : h = 47 <;> simp [e, e2]

theorem dropTrailingSlash_append (x z : GoString) (hz : z ≠ []) :
    dropTrailingSlash (x ++ z) = x ++ dropTrailingSlash z := by
  rcases List.eq_nil_or_concat z with rfl | ⟨i, l, rfl⟩
  · exact absurd rfl hz
  · rw [List.concat_eq_append, ← List.append_assoc, dropTrailingSlash_concat,
      dropTrailingSlash_concat]
    by_cases e : l = 47 <;> simp [e]

theorem dropLeadingSlash_append (y z : GoString) (hy : y ≠ []) :
    dropLeadingSlash (y ++ z) = dropLeadingSlash y ++ z := by
  cases y with
  | nil => exact absurd rfl hy
  | cons h t =>
    rw [List.cons_append, dropLeadingSlash_cons, dropLeadingSlash_cons]
    by_cases e : h = 47 <;> simp [e]

/-- The middle operand of a double join: dropping its leading slash and then
the trailing one, or the other way round, leaves the same bytes between the
two inserted slashes. -/
theorem dropSlashes_middle (b : GoString) :
    dropTrailingSlash (47 :: dropLeadingSlash b) ++ [47]
      = 47 :: dropLeadingSlash (dropTrailingSlash b ++ [47]) := by
  cases b with
  | nil => decide
  | cons h t =>
    by_cases e : h = 47
    · subst e
      rw [dropLeadingSlash_cons, if_pos rfl]
      rcases List.eq_nil_or_concat t with rfl | ⟨i, l, rfl⟩
      · decide
      · rw [List.concat_eq_append, ← List.cons_append, dropTrailingSlash_concat]
        by_cases e2 : l = 47
        · simp only [e2, if_true, List.cons_append, dropLeadingSlash_cons]
        · simp only [e2, if_false, List.cons_append, dropLeadingSlash_cons, if_true]
    · have h1 : dropLeadingSlash (h :: t) = h :: t := by
        rw [dropLeadingSlash_cons, if_neg e]
      have h2 : dropTrailingSlash (47 :: h :: t) = 47 :: dropTrailingSlash (h :: t) :=
        dropTrailingSlash_append [47] (h :: t) (by simp)
      have h3 : ∃ r, dropTrailingSlash (h :: t) = h :: r := by
        rcases List.eq_nil_or_concat t with rfl | ⟨i, l, rfl⟩
        · refine ⟨[], ?_⟩
          have := dropTrailingSlash_concat [] h
          simpa [e] using this
        · rw [List.concat_eq_append, ← List.cons_append, dropTrailingSlash_concat]
          by_cases e2 : l = 47
          · exact ⟨i, by simp [e2]⟩
          · exact ⟨i ++ [l], by simp [e2]⟩
      obtain ⟨r, hr⟩ := h3
      rw [h1, h2, hr, List.cons_append, List.cons_append, dropLeadingSlash_cons, if_neg e]

/-! ## Lemmas on the string form of a URL -/

theorem escape_path_cons (d : UInt8) (s : GoString) :
    escape (d :: s) encodePath =
      if shouldEscape d encodePath = true then
        ch '%' :: upperhex (d.toNat / 16) :: upperhex (d.toNat % 16) :: escape s encodePath
      else d :: escape s encodePath := by
  simp [escape]

theorem shouldEscape_percent : shouldEscape (ch '%') encodePath = true := by decide

/-- A prefix made of bytes that path escaping copies is a prefix of the escaped
path, followed by anything that starts with an escaped byte or is empty,
exactly when it is a prefix of the path itself. -/
theorem prefix_escape_iff (P : GoString) (hP : ∀ c ∈ P, shouldEscape c encodePath = false)
    (tail : GoString) (ht : ∀ t, tail.head? = some t → shouldEscape t encodePath = true)
    (s : GoString) :
    P <+: (escape s encodePath ++ tail) ↔ P <+: s := by
  induction P generalizing s with
  | nil => simp
  | cons c P ih =>
    have hc : shouldEscape c encodePath = false := hP c (List.mem_cons_self _ _)
    have hP2 : ∀ x ∈ P, shouldEscape x encodePath = false :=
      fun x hx => hP x (List.mem_cons_of_mem _ hx)
    cases s with
    | nil =>
      simp only [escape, List.nil_append, List.prefix_nil, List.cons_ne_nil, iff_false]
      intro h
      cases tail with
      | nil => simp at h
      | cons t tl =>
        rw [List.cons_prefix_cons] at h
        have := ht t rfl
        rw [← h.1, hc] at this
        exact Bool.noConfusion this
    | cons d s =>
      rw [escape_path_cons]
      by_cases hd : shouldEscape d encodePath = true
      · rw [if_pos hd, List.cons_append, List.cons_prefix_cons, List.cons_prefix_cons]
        constructor
        · rintro ⟨e, -⟩
          rw [e, shouldEscape_percent] at hc
          exact Bool.noConfusion hc
        · rintro ⟨e, -⟩
          rw [e, hd] at hc
          exact Bool.noConfusion hc
      · rw [if_neg hd, List.cons_append, List.cons_prefix_cons, List.cons_prefix_cons, ih hP2]

theorem String_of_isOriginForm (u : URL) (h : u.isOriginForm) :
    u.String =
      (if byteIn (ch ':') (u.EscapedPath.takeWhile (fun c => c ≠ ch '/')) = true
        then str "./" else []) ++ u.EscapedPath ++ (queryPart u ++ fragmentPart u) := by
  obtain ⟨h1, h2, h3, h4, -⟩ := h
  simp only [URL.String, h1, h2, h3, h4, queryPart, fragmentPart]
  by_cases hc : byteIn (ch ':') (u.EscapedPath.takeWhile (fun c => c ≠ ch '/')) = true <;>
    by_cases hq : (u.ForceQuery = true ∨ u.RawQuery ≠ []) <;>
    by_cases hf : u.Fragment ≠ [] <;>
    simp [hc, hq, hf]

theorem EscapedPath_of_isOriginForm (u : URL) (h : u.isOriginForm) :
    u.EscapedPath = if u.Path = str "*" then str "*" else escape u.Path encodePath := by
  obtain ⟨-, -, -, -, h5⟩ := h
  simp [URL.EscapedPath, h5]

theorem tail_head_escaped (u : URL) :
    ∀ t, (queryPart u ++ fragmentPart u).head? = some t → shouldEscape t encodePath = true := by
  intro t
  have hq1 : str "?" = [ch '?'] := by decide
  have hf1 : str "#" = [ch '#'] := by decide
  unfold queryPart fragmentPart
  by_cases hq : (u.ForceQuery = true ∨ u.RawQuery ≠ [])
  · rw [if_pos hq, hq1]
    intro e
    have : t = ch '?' := by simpa using e.symm
    subst this; decide
  · rw [if_neg hq, List.nil_append]
    by_cases hf : u.Fragment ≠ []
    · rw [if_pos hf, hf1]
      intro e
      have : t = ch '#' := by simpa using e.symm
      subst this; decide
    · rw [if_neg hf]
      intro e
      simp at e

/-- For a URL in origin form, the string form starts with a prefix `/...` made of
bytes that path escaping copies exactly when the path does. -/
theorem hasPrefix_String_iff_Path (u : URL) (h : u.isOriginForm) (P : GoString)
    (hP : ∀ c ∈ (ch '/' :: P), shouldEscape c encodePath = false) :
    HasPrefix u.String (ch '/' :: P) = HasPrefix u.Path (ch '/' :: P) := by
  rw [Bool.eq_iff_iff, hasPrefix_iff, hasPrefix_iff, String_of_isOriginForm u h,
    EscapedPath_of_isOriginForm u h]
  by_cases hs : u.Path = str "*"
  · rw [hs]
    simp only [if_true]
    constructor
    · intro hp
      exfalso
      revert hp
      simp [str, byteIn, ch]
    · intro hp
      exfalso
      revert hp
      simp [str, ch]
  · simp only [hs, if_false]
    by_cases hc : byteIn (ch ':') ((escape u.Path encodePath).takeWhile (fun c => c ≠ ch '/')) = true
    · rw [if_pos hc]
      constructor
      · intro hp
        exfalso
        revert hp
        simp [str, ch]
      · intro hp
        exfalso
        obtain ⟨r, hr⟩ := hp
        rw [← hr] at hc
        have h47 : shouldEscape (ch '/') encodePath = false := by decide
        simp [escape_path_cons, h47, byteIn] at hc
    · rw [if_neg hc, List.nil_append]
      exact prefix_escape_iff _ hP _ (tail_head_escaped u) _

theorem String_of_authority (u : URL) (hs : u.Scheme ≠ []) (ho : u.Opaque = [])
    (hu : u.User = none) (hh : u.Host ≠ []) (hp : u.EscapedPath.head? = some (ch '/')) :
    u.String = u.Scheme ++ str "://" ++ escape u.Host encodeHost
      ++ (u.EscapedPath ++ (queryPart u ++ fragmentPart u)) := by
  have hne : u.EscapedPath ≠ [] := by
    intro e; rw [e] at hp; exact Option.noConfusion hp
  have k : str "://" = str ":" ++ str "//" := by decide
  simp only [URL.String, ho, hu, queryPart, fragmentPart, k]
  by_cases hq : (u.ForceQuery = true ∨ u.RawQuery ≠ []) <;>
    by_cases hf : u.Fragment ≠ [] <;>
    simp [hs, hh, hp, hq, hf]

theorem String_of_isOriginForm_slash (u : URL) (h : u.isOriginForm)
    (hp : HasPrefix u.Path (str "/") = true) :
    u.EscapedPath.head? = some (ch '/') ∧
    u.String = u.EscapedPath ++ (queryPart u ++ fragmentPart u) := by
  have h47 : shouldEscape (ch '/') encodePath = false := by decide
  rw [String_of_isOriginForm u h, EscapedPath_of_isOriginForm u h]
  cases hP : u.Path with
  | nil => rw [hP] at hp; exact absurd hp (by decide)
  | cons c t =>
    rw [hP, str_slash, hasPrefix_slash_cons] at hp
    have hc : c = ch '/' := by simpa using hp
    subst hc
    have hstar : ¬ (ch '/' :: t = str "*") := by
      simp [str, ch]
    rw [if_neg hstar, escape_path_cons]
    simp [h47, byteIn]

/-! ## Lemmas on the Director -/

theorem director_eq (client : World) (cdn trackingAPI : URL) (mirror : Option URL)
    (req : Request) :
    director client cdn trackingAPI mirror req =
      match mirror with
      | none =>
        { panicked := false, target := chosenUpstream req,
          req := retargeted cdn trackingAPI req, log := attributionLog req, calls := [] }
      | some m =>
        match copyRequestTo client m (retargeted cdn trackingAPI req) with
        | none =>
          { panicked := true, target := chosenUpstream req,
            req := retargeted cdn trackingAPI req, log := attributionLog req, calls := [] }
        | some r =>
          match r.err with
          | some err =>
            { panicked := false, target := chosenUpstream req, req := r.req,
              log := attributionLog req ++ [mirrorErrorLine m.String err], calls := r.calls }
          | none =>
            { panicked := false, target := chosenUpstream req, req := r.req,
              log := attributionLog req, calls := r.calls } := by
  unfold director retargeted chosenTarget chosenUpstream attributionLog mergedQuery
  by_cases h : isCDNURL req.URL = true
  · simp only [h, if_true]
    by_cases hq : cdn.RawQuery = [] ∨ req.URL.RawQuery = []
    · simp only [hq, if_true]
    · simp only [hq, if_false]
  · simp only [h, Bool.false_eq_true, if_false]
    by_cases hq : trackingAPI.RawQuery = [] ∨ req.URL.RawQuery = []
    · simp only [hq, if_true]
    · simp only [hq, if_false]

theorem isCDNURL_iff (u : URL) :
    isCDNURL u = true ↔
      HasPrefix u.String (str "/v1/projects") = true ∨
      HasPrefix u.String (str "/analytics.js/v1") = true := by
  simp [isCDNURL]

theorem plain_v1_projects :
    ∀ c ∈ str "/v1/projects", shouldEscape c encodePath = false := by decide

theorem plain_analytics_js_v1 :
    ∀ c ∈ str "/analytics.js/v1", shouldEscape c encodePath = false := by decide

theorem plain_v1_attribution :
    ∀ c ∈ str "/v1/attribution", shouldEscape c encodePath = false := by decide

theorem isCDNURL_of_isOriginForm (u : URL) (h : u.isOriginForm) :
    isCDNURL u =
      (HasPrefix u.Path (str "/v1/projects") || HasPrefix u.Path (str "/analytics.js/v1")) := by
  unfold isCDNURL
  have e1 := hasPrefix_String_iff_Path u h (str "v1/projects") plain_v1_projects
  have e2 := hasPrefix_String_iff_Path u h (str "analytics.js/v1") plain_analytics_js_v1
  have k1 : ch '/' :: str "v1/projects" = str "/v1/projects" := by decide
  have k2 : ch '/' :: str "analytics.js/v1" = str "/analytics.js/v1" := by decide
  rw [k1] at e1
  rw [k2] at e2
  simp only [e1, e2]

theorem isAttributionURL_of_isOriginForm (u : URL) (h : u.isOriginForm) :
    isAttributionURL u = HasPrefix u.Path (str "/v1/attribution") := by
  unfold isAttributionURL
  have e1 := hasPrefix_String_iff_Path u h (str "v1/attribution") plain_v1_attribution
  have k1 : ch '/' :: str "v1/attribution" = str "/v1/attribution" := by decide
  rw [k1] at e1
  exact e1

theorem director_target (client : World) (cdn trackingAPI : URL) (mirror : Option URL)
    (req : Request) :
    (director client cdn trackingAPI mirror req).target = chosenUpstream req := by
  rw [director_eq]
  cases mirror with
  | none => rfl
  | some m =>
    simp only
    cases copyRequestTo client m (retargeted cdn trackingAPI req) with
    | none => rfl
    | some r => cases h : r.err <;> simp [h]

theorem copyRequestTo_req (client : World) (m : URL) (req : Request) (r : CopyResult)
    (h : copyRequestTo client m req = some r) :
    r.req.Method = req.Method ∧ r.req.URL = req.URL ∧ r.req.Header = req.Header ∧
    r.req.Host = req.Host ∧ r.req.RequestURI = req.RequestURI := by
  unfold copyRequestTo at h
  split at h
  · exact Option.noConfusion h
  · simp only [ReadAll] at h
    split at h
    · cases h; simp
    · split at h
      · cases h; simp
      · split at h <;> (cases h; simp)

theorem director_req_URL (client : World) (cdn trackingAPI : URL) (mirror : Option URL)
    (req : Request) :
    (director client cdn trackingAPI mirror req).req.URL
      = (retargeted cdn trackingAPI req).URL ∧
    (director client cdn trackingAPI mirror req).req.Host
      = (retargeted cdn trackingAPI req).Host ∧
    (director client cdn trackingAPI mirror req).req.Method = req.Method ∧
    (director client cdn trackingAPI mirror req).req.Header = req.Header ∧
    (director client cdn trackingAPI mirror req).req.RequestURI = req.RequestURI := by
  rw [director_eq]
  cases mirror with
  | none => exact ⟨rfl, rfl, rfl, rfl, rfl⟩
  | some m =>
    simp only
    cases hc : copyRequestTo client m (retargeted cdn trackingAPI req) with
    | none => exact ⟨rfl, rfl, rfl, rfl, rfl⟩
    | some r =>
      obtain ⟨h1, h2, h3, h4, h5⟩ := copyRequestTo_req client m _ r hc
      cases h : r.err <;> simp only [h] <;> exact ⟨h2, h4, h1, h3, h5⟩

theorem chosenUpstream_url (cdn trackingAPI : URL) (req : Request) :
    (chosenUpstream req).url cdn trackingAPI = chosenTarget cdn trackingAPI req := by
  unfold chosenUpstream chosenTarget
  by_cases h : isCDNURL req.URL = true <;> simp [h, Upstream.url]

theorem isAttributionLine_attributionLine (s : GoString) :
    isAttributionLine (attributionLine s) = true := by
  unfold isAttributionLine attributionLine
  rw [hasPrefix_iff, List.append_assoc]
  exact List.prefix_append _ _

theorem isAttributionLine_mirrorErrorLine (m e : GoString) :
    isAttributionLine (mirrorErrorLine m e) = false := by
  unfold isAttributionLine mirrorErrorLine
  rw [Bool.eq_false_iff]
  intro h
  rw [hasPrefix_iff] at h
  have k1 : str "ERROR: Failed to mirror request to "
      = ch 'E' :: str "RROR: Failed to mirror request to " := by decide
  have k2 : str "[INFO]: Got an attribution request: ["
      = ch '[' :: str "INFO]: Got an attribution request: [" := by decide
  rw [k1, k2] at h
  simp only [List.cons_append, List.cons_prefix_cons] at h
  exact absurd h.1 (by decide)

theorem not_isCDNURL_of_isAttributionURL (u : URL) (h : isAttributionURL u = true) :
    isCDNURL u = false := by
  unfold isAttributionURL at h
  rw [hasPrefix_iff] at h
  rw [Bool.eq_false_iff]
  intro hc
  rcases (isCDNURL_iff u).1 hc with h1 | h1
  · rw [hasPrefix_iff] at h1
    rcases List.prefix_or_prefix_of_prefix h h1 with k | k
    · exact absurd k (by decide)
    · exact absurd k (by decide)
  · rw [hasPrefix_iff] at h1
    rcases List.prefix_or_prefix_of_prefix h h1 with k | k
    · exact absurd k (by decide)
    · exact absurd k (by decide)

theorem director_log (client : World) (cdn trackingAPI : URL) (mirror : Option URL)
    (req : Request) :
    (director client cdn trackingAPI mirror req).log = attributionLog req ∨
    ∃ m err, mirror = some m ∧
      (director client cdn trackingAPI mirror req).log
        = attributionLog req ++ [mirrorErrorLine m.String err] := by
  rw [director_eq]
  cases mirror with
  | none => exact Or.inl rfl
  | some m =>
    simp only
    cases copyRequestTo client m (retargeted cdn trackingAPI req) with
    | none => exact Or.inl rfl
    | some r =>
      cases h : r.err with
      | none => exact Or.inl (by simp [h])
      | some err => exact Or.inr ⟨m, err, rfl, by simp [h]⟩

theorem countP_director_log (client : World) (cdn trackingAPI : URL) (mirror : Option URL)
    (req : Request) :
    (director client cdn trackingAPI mirror req).log.countP isAttributionLine
      = (attributionLog req).countP isAttributionLine := by
  rcases director_log client cdn trackingAPI mirror req with h | ⟨m, err, -, h⟩
  · rw [h]
  · rw [h, List.countP_append]
    simp [isAttributionLine_mirrorErrorLine]

theorem copyRequestTo_calls (client : World) (m : URL) (req : Request) (r : CopyResult)
    (h : copyRequestTo client m req = some r) :
    ∃ b, req.Body = some b ∧
      (r.calls = [] ∨
        (b.err = none ∧ ∃ parsed,
          client.newRequest req.Method (m.String ++ req.RequestURI) = Except.ok parsed ∧
          r.calls = [mirrorRequest parsed req b.data])) := by
  unfold copyRequestTo at h
  split at h
  · exact Option.noConfusion h
  · rename_i b hb
    refine ⟨b, hb, ?_⟩
    simp only [ReadAll] at h
    split at h
    · cases h; exact Or.inl rfl
    · rename_i he
      split at h
      · cases h; exact Or.inl rfl
      · rename_i parsed hn
        split at h <;> (cases h; exact Or.inr ⟨he, parsed, hn, rfl⟩)

theorem copyRequestTo_sent (client : World) (m : URL) (req : Request) (b : BodyReader)
    (parsed : URL) (hb : req.Body = some b) (he : b.err = none)
    (hn : client.newRequest req.Method (m.String ++ req.RequestURI) = Except.ok parsed) :
    ∃ r, copyRequestTo client m req = some r ∧ r.calls = [mirrorRequest parsed req b.data] := by
  unfold copyRequestTo
  simp only [hb, ReadAll, he, hn]
  split <;> exact ⟨_, rfl, rfl⟩

theorem copyRequestTo_readable (client : World) (m : URL) (req : Request) (b : BodyReader)
    (hb : req.Body = some b) (he : b.err = none) :
    ∃ r, copyRequestTo client m req = some r ∧
      r.req = { req with Body := some (NewReader b.data) } := by
  unfold copyRequestTo
  simp only [hb, ReadAll, he]
  cases client.newRequest req.Method (m.String ++ req.RequestURI) with
  | error e => exact ⟨_, rfl, rfl⟩
  | ok parsed =>
    simp only
    split <;> exact ⟨_, rfl, rfl⟩

/-- Whenever the request body is present and is read to its end, the Director
with a mirror target does not panic, picks the same target and leaves the
request of the run without a mirror, its body replaced by a fresh reader over
the same bytes, whatever becomes of the mirror request; its log is that of the
run without a mirror, followed by at most one line for the mirror's error. -/
theorem director_mirror_isolated_of_readable (client : World) (cdn trackingAPI m : URL)
    (req : Request) (b : BodyReader) (hb : req.Body = some b) (he : b.err = none) :
    (director client cdn trackingAPI (some m) req).panicked = false ∧
    (director client cdn trackingAPI (some m) req).req
      = { (director client cdn trackingAPI none req).req with
          Body := some (NewReader b.data) } ∧
    (director client cdn trackingAPI (some m) req).target
      = (director client cdn trackingAPI none req).target ∧
    ((director client cdn trackingAPI (some m) req).log
        = (director client cdn trackingAPI none req).log ∨
      ∃ err, (director client cdn trackingAPI (some m) req).log
        = (director client cdn trackingAPI none req).log ++ [mirrorErrorLine m.String err]) := by
  obtain ⟨r, hr, hreq⟩ :=
    copyRequestTo_readable client m (retargeted cdn trackingAPI req) b hb he
  rw [director_eq, director_eq]
  simp only [hr]
  cases h : r.err with
  | none => exact ⟨rfl, hreq, rfl, Or.inl rfl⟩
  | some err => exact ⟨rfl, hreq, rfl, Or.inr ⟨err, rfl⟩⟩

/-- The mirror request, when the Director issues one: every request handed to
`client.Do` for an inbound request with a method has the inbound method, the
URL that `http.NewRequest` parsed from the mirror URL's string form followed by
the request-URI as received, the inbound headers, and the bytes of the inbound
body; there is at most one such request, and there is exactly one whenever the
body is present and read to its end and `http.NewRequest` accepts the method
and destination. -/
theorem director_mirror_request_shape (client : World) (cdn trackingAPI m : URL)
    (req : Request) (hm : req.Method ≠ []) :
    (∀ c ∈ (director client cdn trackingAPI (some m) req).calls,
      c.Method = req.Method ∧
      client.newRequest req.Method (m.String ++ req.RequestURI) = Except.ok c.URL ∧
      c.Header = req.Header ∧
      ∃ b, req.Body = some b ∧ b.err = none ∧ c.Body = b.data) ∧
    (director client cdn trackingAPI (some m) req).calls.length ≤ 1 ∧
    (∀ b parsed, req.Body = some b → b.err = none →
      client.newRequest req.Method (m.String ++ req.RequestURI) = Except.ok parsed →
      (director client cdn trackingAPI (some m) req).calls =
        [{ Method := req.Method, URL := parsed, Header := req.Header, Body := b.data }]) := by
  have hcalls : (director client cdn trackingAPI (some m) req).calls = [] ∨
      ∃ b parsed, req.Body = some b ∧ b.err = none ∧
        client.newRequest req.Method (m.String ++ req.RequestURI) = Except.ok parsed ∧
        (director client cdn trackingAPI (some m) req).calls
          = [mirrorRequest parsed req b.data] := by
    rw [director_eq]
    simp only
    cases hc : copyRequestTo client m (retargeted cdn trackingAPI req) with
    | none => exact Or.inl rfl
    | some r =>
      obtain ⟨b, hb, hk⟩ := copyRequestTo_calls client m _ r hc
      have hcalls2 : r.calls = [] ∨ ∃ parsed, b.err = none ∧
          client.newRequest req.Method (m.String ++ req.RequestURI) = Except.ok parsed ∧
          r.calls = [mirrorRequest parsed req b.data] := by
        rcases hk with hk | ⟨he, parsed, hn, hk⟩
        · exact Or.inl hk
        · exact Or.inr ⟨parsed, he, hn, hk⟩
      cases h : r.err <;> simp only [h] <;>
        (rcases hcalls2 with k | ⟨parsed, he, hn, k⟩
         · exact Or.inl k
         · exact Or.inr ⟨b, parsed, hb, he, hn, k⟩)
  refine ⟨?_, ?_, ?_⟩
  · intro c hc
    rcases hcalls with k | ⟨b, parsed, hb, he, hn, k⟩
    · rw [k] at hc; exact absurd hc (List.not_mem_nil c)
    · rw [k, List.mem_singleton] at hc
      subst hc
      exact ⟨by simp [mirrorRequest, hm], hn, rfl, b, hb, he, rfl⟩
  · rcases hcalls with k | ⟨b, parsed, -, -, -, k⟩ <;> rw [k] <;> simp
  · intro b parsed hb he hn
    obtain ⟨r, hr, hk⟩ :=
      copyRequestTo_sent client m (retargeted cdn trackingAPI req) b parsed hb he hn
    rw [director_eq]
    simp only [hr]
    have hk2 : r.calls =
        [({ Method := req.Method, URL := parsed, Header := req.Header,
            Body := b.data } : OutboundRequest)] := by
      rw [hk]
      simp [mirrorRequest, retargeted, hm]
    cases h : r.err <;> simp only [h] <;> exact hk2

/-! ## Path join: the claims -/

/-- C2: for all strings `a` and `b`, `singleJoiningSlash a b` is `a ++ b[1:]` when
`a` ends and `b` starts with `/`, `a ++ "/" ++ b` when neither does, and `a ++ b`
when exactly one does; in every case it equals `a` without one trailing slash,
then `/`, then `b` without one leading slash. The three examples of the
specification evaluate as stated. -/
theorem singleJoiningSlash_three_cases (a b : GoString) :
    (HasSuffix a (str "/") = true → HasPrefix b (str "/") = true →
      singleJoiningSlash a b = a ++ b.drop 1) ∧
    (HasSuffix a (str "/") = false → HasPrefix b (str "/") = false →
      singleJoiningSlash a b = a ++ str "/" ++ b) ∧
    (HasSuffix a (str "/") ≠ HasPrefix b (str "/") →
      singleJoiningSlash a b = a ++ b) ∧
    singleJoiningSlash a b = dropTrailingSlash a ++ str "/" ++ dropLeadingSlash b ∧
    singleJoiningSlash (str "") (str "/v1/foo") = str "/v1/foo" ∧
    singleJoiningSlash (str "/base/") (str "/v1/foo") = str "/base/v1/foo" ∧
    singleJoiningSlash (str "/base") (str "v1/foo") = str "/base/v1/foo" := by
  refine ⟨?_, ?_, ?_, ?_, by decide, by decide, by decide⟩
  · intro ha hb
    simp [singleJoiningSlash, ha, hb]
  · intro ha hb
    simp [singleJoiningSlash, ha, hb]
  · intro hne
    cases ha : HasSuffix a (str "/") <;> cases hb : HasPrefix b (str "/") <;>
      simp_all [singleJoiningSlash]
  · rw [str_slash]
    exact singleJoiningSlash_eq a b

/-- Witness for C2 at `a = "/base/"`, `b = "/v1/foo"` (both slashes present). -/
theorem singleJoiningSlash_three_cases_witness :
    HasSuffix (str "/base/") (str "/") = true ∧ HasPrefix (str "/v1/foo") (str "/") = true ∧
    singleJoiningSlash (str "/base/") (str "/v1/foo")
      = str "/base/" ++ (str "/v1/foo").drop 1 :=
  ⟨by decide, by decide,
    (singleJoiningSlash_three_cases (str "/base/") (str "/v1/foo")).1 (by decide) (by decide)⟩

/-- C10: `singleJoiningSlash` is associative on all strings, the empty string and
strings made only of slashes included. -/
theorem singleJoiningSlash_assoc (a b c : GoString) :
    singleJoiningSlash (singleJoiningSlash a b) c
      = singleJoiningSlash a (singleJoiningSlash b c) := by
  rw [singleJoiningSlash_eq (singleJoiningSlash a b) c, singleJoiningSlash_eq a b,
    singleJoiningSlash_eq a (singleJoiningSlash b c), singleJoiningSlash_eq b c]
  have hl : dropTrailingSlash (dropTrailingSlash a ++ [47] ++ dropLeadingSlash b)
      = dropTrailingSlash a ++ dropTrailingSlash (47 :: dropLeadingSlash b) := by
    rw [List.append_assoc]
    exact dropTrailingSlash_append _ _ (by simp)
  have hr : dropLeadingSlash (dropTrailingSlash b ++ [47] ++ dropLeadingSlash c)
      = dropLeadingSlash (dropTrailingSlash b ++ [47]) ++ dropLeadingSlash c :=
    dropLeadingSlash_append _ _ (by simp)
  rw [hl, hr]
  have hm := dropSlashes_middle b
  calc dropTrailingSlash a ++ dropTrailingSlash (47 :: dropLeadingSlash b) ++ [47]
          ++ dropLeadingSlash c
      = dropTrailingSlash a ++ (dropTrailingSlash (47 :: dropLeadingSlash b) ++ [47])
          ++ dropLeadingSlash c := by simp only [List.append_assoc]
    _ = dropTrailingSlash a ++ (47 :: dropLeadingSlash (dropTrailingSlash b ++ [47]))
          ++ dropLeadingSlash c := by rw [hm]
    _ = dropTrailingSlash a ++ [47]
          ++ (dropLeadingSlash (dropTrailingSlash b ++ [47]) ++ dropLeadingSlash c) := by
        simp only [List.append_assoc, List.singleton_append, List.cons_append,
          List.nil_append]

/-! ## Routing: the claims -/

/-- C1 (amended): the Director picks the CDN target exactly when the string form
of the request URL, `req.URL.String()`, starts with `/v1/projects` or with
`/analytics.js/v1`, and the Tracking-API target otherwise. For a URL in origin
form (no scheme, opaque part, user or host, path in its default escaping) that
is exactly when the path starts with one of the two prefixes, so the empty path
goes to the Tracking API and two such URLs with the same path get the same
target, whatever their query and fragment. -/
theorem director_target_iff (client : World) (cdn trackingAPI : URL) (mirror : Option URL)
    (req : Request) :
    ((director client cdn trackingAPI mirror req).target = Upstream.CDN ↔
      (HasPrefix req.URL.String (str "/v1/projects") = true ∨
       HasPrefix req.URL.String (str "/analytics.js/v1") = true)) ∧
    ((director client cdn trackingAPI mirror req).target = Upstream.TrackingAPI ↔
      ¬ (HasPrefix req.URL.String (str "/v1/projects") = true ∨
         HasPrefix req.URL.String (str "/analytics.js/v1") = true)) ∧
    (req.URL.isOriginForm →
      ((director client cdn trackingAPI mirror req).target = Upstream.CDN ↔
        (HasPrefix req.URL.Path (str "/v1/projects") = true ∨
         HasPrefix req.URL.Path (str "/analytics.js/v1") = true)) ∧
      (req.URL.Path = [] →
        (director client cdn trackingAPI mirror req).target = Upstream.TrackingAPI) ∧
      (∀ (client2 : World) (cdn2 trackingAPI2 : URL) (mirror2 : Option URL) (req2 : Request),
        req2.URL.isOriginForm → req2.URL.Path = req.URL.Path →
        (director client2 cdn2 trackingAPI2 mirror2 req2).target
          = (director client cdn trackingAPI mirror req).target)) := by
  have hT := director_target client cdn trackingAPI mirror req
  have hiff := isCDNURL_iff req.URL
  refine ⟨?_, ?_, ?_⟩
  · rw [hT, ← hiff]
    unfold chosenUpstream
    by_cases h : isCDNURL req.URL = true <;> simp [h]
  · rw [hT, ← hiff]
    unfold chosenUpstream
    by_cases h : isCDNURL req.URL = true <;> simp [h]
  · intro ho
    have hc := isCDNURL_of_isOriginForm req.URL ho
    refine ⟨?_, ?_, ?_⟩
    · rw [hT]
      unfold chosenUpstream
      rw [hc]
      by_cases h1 : HasPrefix req.URL.Path (str "/v1/projects") = true <;>
        by_cases h2 : HasPrefix req.URL.Path (str "/analytics.js/v1") = true <;>
        simp [h1, h2]
    · intro hp
      rw [hT]
      unfold chosenUpstream
      rw [hc, hp]
      decide
    · intro client2 cdn2 trackingAPI2 mirror2 req2 ho2 hp
      rw [hT, director_target]
      unfold chosenUpstream
      rw [hc, isCDNURL_of_isOriginForm req2.URL ho2, hp]

/-- Witness for C1 (amended): `GET /v1/projects/abc/settings?x=1`, in origin
form, goes to the CDN. -/
theorem director_target_iff_witness :
    (mkURL [] [] (str "/v1/projects/abc/settings") (str "x=1")).isOriginForm ∧
    (director reachable segmentCDN segmentTrackingAPI none
      (mkRequest (str "GET") (mkURL [] [] (str "/v1/projects/abc/settings") (str "x=1"))
        (str "/v1/projects/abc/settings?x=1") none)).target = Upstream.CDN :=
  ⟨by decide,
    ((director_target_iff reachable segmentCDN segmentTrackingAPI none
      (mkRequest (str "GET") (mkURL [] [] (str "/v1/projects/abc/settings") (str "x=1"))
        (str "/v1/projects/abc/settings?x=1") none)).2.2 (by decide)).1.2
      (Or.inl (by decide))⟩

/-- C1 as stated fails: the request line `GET http://example.com/v1/projects/abc`
(absolute form) and the request line `GET /v1/project%73/abc` both carry the
path `/v1/projects/abc`, and both go to the Tracking API, while
`GET /v1/projects/abc` with the same path goes to the CDN. -/
theorem director_target_not_by_path_alone :
    HasPrefix (mkURL (str "http") (str "example.com") (str "/v1/projects/abc") []).Path
      (str "/v1/projects") = true ∧
    (director reachable segmentCDN segmentTrackingAPI none
      (mkRequest (str "GET") (mkURL (str "http") (str "example.com") (str "/v1/projects/abc") [])
        (str "http://example.com/v1/projects/abc") none)).target = Upstream.TrackingAPI ∧
    (director reachable segmentCDN segmentTrackingAPI none
      (mkRequest (str "GET")
        { mkURL [] [] (str "/v1/projects/abc") [] with RawPath := str "/v1/project%73/abc" }
        (str "/v1/project%73/abc") none)).target = Upstream.TrackingAPI ∧
    (director reachable segmentCDN segmentTrackingAPI none
      (mkRequest (str "GET") (mkURL [] [] (str "/v1/projects/abc") [])
        (str "/v1/projects/abc") none)).target = Upstream.CDN := by
  decide

/-! ## Rewriting: the claims -/

/-- C3: the raw query the Director leaves is `T ++ R` when the chosen target's
query `T` or the incoming query `R` is empty, and `T ++ "&" ++ R` when both are
non-empty; the four examples of the specification evaluate as stated. -/
theorem director_rawQuery (client : World) (cdn trackingAPI : URL) (mirror : Option URL)
    (req : Request) :
    (director client cdn trackingAPI mirror req).req.URL.RawQuery =
      (if ((director client cdn trackingAPI mirror req).target.url cdn trackingAPI).RawQuery = []
          ∨ req.URL.RawQuery = [] then
        ((director client cdn trackingAPI mirror req).target.url cdn trackingAPI).RawQuery
          ++ req.URL.RawQuery
      else
        ((director client cdn trackingAPI mirror req).target.url cdn trackingAPI).RawQuery
          ++ str "&" ++ req.URL.RawQuery) ∧
    (director reachable segmentCDN (mkURL (str "http") (str "api.segment.io") [] (str ""))
      none (mkRequest (str "GET") (mkURL [] [] (str "/v1/track") (str "")) (str "/v1/track")
        none)).req.URL.RawQuery = str "" ∧
    (director reachable segmentCDN (mkURL (str "http") (str "api.segment.io") [] (str "a=1"))
      none (mkRequest (str "GET") (mkURL [] [] (str "/v1/track") (str "")) (str "/v1/track")
        none)).req.URL.RawQuery = str "a=1" ∧
    (director reachable segmentCDN (mkURL (str "http") (str "api.segment.io") [] (str ""))
      none (mkRequest (str "GET") (mkURL [] [] (str "/v1/track") (str "b=2"))
        (str "/v1/track?b=2") none)).req.URL.RawQuery = str "b=2" ∧
    (director reachable segmentCDN (mkURL (str "http") (str "api.segment.io") [] (str "a=1"))
      none (mkRequest (str "GET") (mkURL [] [] (str "/v1/track") (str "b=2"))
        (str "/v1/track?b=2") none)).req.URL.RawQuery = str "a=1&b=2" := by
  refine ⟨?_, by decide, by decide, by decide, by decide⟩
  rw [(director_req_URL client cdn trackingAPI mirror req).1, director_target,
    chosenUpstream_url]
  rfl

/-- C4: after the Director has run, the request's URL scheme and URL host are the
chosen target's scheme and host and `req.Host` is the chosen target's host,
whatever the inbound request carried in these fields. -/
theorem director_scheme_host (client : World) (cdn trackingAPI : URL) (mirror : Option URL)
    (req : Request) :
    (director client cdn trackingAPI mirror req).req.URL.Scheme
      = ((director client cdn trackingAPI mirror req).target.url cdn trackingAPI).Scheme ∧
    (director client cdn trackingAPI mirror req).req.URL.Host
      = ((director client cdn trackingAPI mirror req).target.url cdn trackingAPI).Host ∧
    (director client cdn trackingAPI mirror req).req.Host
      = ((director client cdn trackingAPI mirror req).target.url cdn trackingAPI).Host := by
  obtain ⟨h1, h2, -⟩ := director_req_URL client cdn trackingAPI mirror req
  rw [h1, h2, director_target, chosenUpstream_url]
  exact ⟨rfl, rfl, rfl⟩

/-- C5: for a request whose path begins with `/`, when the chosen target has an
empty base path and an empty query, the Director leaves path and raw query as
received: the URL it leaves is the inbound URL with the target's scheme and host
put in. When the inbound URL is in origin form and the target has a scheme and a
host, its string form is `scheme://host` followed by the string form of the
inbound URL (path and query). -/
theorem director_keeps_path_and_query (client : World) (cdn trackingAPI : URL)
    (mirror : Option URL) (req : Request)
    (hp : HasPrefix req.URL.Path (str "/") = true)
    (hb : ((director client cdn trackingAPI mirror req).target.url cdn trackingAPI).Path = [])
    (hq : ((director client cdn trackingAPI mirror req).target.url cdn trackingAPI).RawQuery
      = []) :
    (director client cdn trackingAPI mirror req).req.URL.Path = req.URL.Path ∧
    (director client cdn trackingAPI mirror req).req.URL.RawQuery = req.URL.RawQuery ∧
    (director client cdn trackingAPI mirror req).req.URL =
      { req.URL with
        Scheme := ((director client cdn trackingAPI mirror req).target.url cdn trackingAPI).Scheme
        Host := ((director client cdn trackingAPI mirror req).target.url cdn trackingAPI).Host } ∧
    (req.URL.isOriginForm →
      ((director client cdn trackingAPI mirror req).target.url cdn trackingAPI).Scheme ≠ [] →
      ((director client cdn trackingAPI mirror req).target.url cdn trackingAPI).Host ≠ [] →
      (director client cdn trackingAPI mirror req).req.URL.String =
        ((director client cdn trackingAPI mirror req).target.url cdn trackingAPI).Scheme
          ++ str "://"
          ++ escape ((director client cdn trackingAPI mirror req).target.url cdn trackingAPI).Host
              encodeHost
          ++ req.URL.String) := by
  rw [director_target, chosenUpstream_url] at hb hq ⊢
  rw [(director_req_URL client cdn trackingAPI mirror req).1]
  have hpath : singleJoiningSlash (chosenTarget cdn trackingAPI req).Path req.URL.Path
      = req.URL.Path := by
    have hp2 : HasPrefix req.URL.Path [47] = true := by rw [← str_slash]; exact hp
    rw [hb]
    simp [singleJoiningSlash, str_slash, hp2, hasSuffix_slash_nil]
  have hquery : mergedQuery (chosenTarget cdn trackingAPI req).RawQuery req.URL.RawQuery
      = req.URL.RawQuery := by
    rw [hq]
    simp [mergedQuery]
  have hURL : (retargeted cdn trackingAPI req).URL =
      { req.URL with
        Scheme := (chosenTarget cdn trackingAPI req).Scheme
        Host := (chosenTarget cdn trackingAPI req).Host } := by
    simp only [retargeted, hpath, hquery]
  refine ⟨?_, ?_, hURL, ?_⟩
  · rw [hURL]
  · rw [hURL]
  · intro ho hs hh
    obtain ⟨hhead, hstr⟩ := String_of_isOriginForm_slash req.URL ho hp
    rw [hURL, hstr]
    exact String_of_authority
      { req.URL with
        Scheme := (chosenTarget cdn trackingAPI req).Scheme
        Host := (chosenTarget cdn trackingAPI req).Host } hs ho.2.1 ho.2.2.1 hh hhead

/-- Witness for C5: `GET /v1/projects/abc/settings?x=1` with the CDN target
`http://cdn.example.com` leaves the outbound URL
`http://cdn.example.com/v1/projects/abc/settings?x=1`. -/
theorem director_keeps_path_and_query_witness :
    HasPrefix (str "/v1/projects/abc/settings") (str "/") = true ∧
    (director reachable (mkURL (str "http") (str "cdn.example.com") [] []) segmentTrackingAPI none
      (mkRequest (str "GET") (mkURL [] [] (str "/v1/projects/abc/settings") (str "x=1"))
        (str "/v1/projects/abc/settings?x=1") none)).req.URL.Path
      = str "/v1/projects/abc/settings" ∧
    (director reachable (mkURL (str "http") (str "cdn.example.com") [] []) segmentTrackingAPI none
      (mkRequest (str "GET") (mkURL [] [] (str "/v1/projects/abc/settings") (str "x=1"))
        (str "/v1/projects/abc/settings?x=1") none)).req.URL.RawQuery = str "x=1" ∧
    (director reachable (mkURL (str "http") (str "cdn.example.com") [] []) segmentTrackingAPI none
      (mkRequest (str "GET") (mkURL [] [] (str "/v1/projects/abc/settings") (str "x=1"))
        (str "/v1/projects/abc/settings?x=1") none)).req.URL.String
      = str "http://cdn.example.com/v1/projects/abc/settings?x=1" :=
  have h := director_keeps_path_and_query reachable
    (mkURL (str "http") (str "cdn.example.com") [] []) segmentTrackingAPI none
    (mkRequest (str "GET") (mkURL [] [] (str "/v1/projects/abc/settings") (str "x=1"))
      (str "/v1/projects/abc/settings?x=1") none) (by decide) (by decide) (by decide)
  ⟨by decide, h.1, h.2.1, by decide⟩

/-! ## Attribution events: the claims -/

/-- C6 (amended): when the string form of the request URL, `req.URL.String()`,
starts with `/v1/attribution`, the Director routes the request to the Tracking
API and logs the attribution event exactly once, carrying that string form;
when it does not, no attribution event is logged. For a URL in origin form the
string form starts with `/v1/attribution` exactly when the path does. -/
theorem director_attribution_event (client : World) (cdn trackingAPI : URL)
    (mirror : Option URL) (req : Request) :
    (HasPrefix req.URL.String (str "/v1/attribution") = true →
      (director client cdn trackingAPI mirror req).target = Upstream.TrackingAPI ∧
      (director client cdn trackingAPI mirror req).log.countP isAttributionLine = 1 ∧
      attributionLine req.URL.String ∈ (director client cdn trackingAPI mirror req).log) ∧
    (HasPrefix req.URL.String (str "/v1/attribution") = false →
      (director client cdn trackingAPI mirror req).log.countP isAttributionLine = 0) ∧
    (req.URL.isOriginForm →
      (HasPrefix req.URL.Path (str "/v1/attribution") = true →
        (director client cdn trackingAPI mirror req).target = Upstream.TrackingAPI ∧
        (director client cdn trackingAPI mirror req).log.countP isAttributionLine = 1 ∧
        attributionLine req.URL.String ∈ (director client cdn trackingAPI mirror req).log) ∧
      (HasPrefix req.URL.Path (str "/v1/attribution") = false →
        (director client cdn trackingAPI mirror req).log.countP isAttributionLine = 0)) := by
  have pos : isAttributionURL req.URL = true →
      (director client cdn trackingAPI mirror req).target = Upstream.TrackingAPI ∧
      (director client cdn trackingAPI mirror req).log.countP isAttributionLine = 1 ∧
      attributionLine req.URL.String ∈ (director client cdn trackingAPI mirror req).log := by
    intro h
    have hc := not_isCDNURL_of_isAttributionURL req.URL h
    have hl : attributionLog req = [attributionLine req.URL.String] := by
      simp [attributionLog, hc, h]
    refine ⟨?_, ?_, ?_⟩
    · rw [director_target]
      simp [chosenUpstream, hc]
    · rw [countP_director_log, hl]
      simp [isAttributionLine_attributionLine]
    · rcases director_log client cdn trackingAPI mirror req with k | ⟨m, err, -, k⟩ <;>
        rw [k, hl] <;> simp
  have neg : isAttributionURL req.URL = false →
      (director client cdn trackingAPI mirror req).log.countP isAttributionLine = 0 := by
    intro h
    rw [countP_director_log]
    unfold attributionLog
    by_cases hc : isCDNURL req.URL = true <;> simp [hc, h]
  refine ⟨pos, neg, ?_⟩
  intro ho
  have e := isAttributionURL_of_isOriginForm req.URL ho
  exact ⟨fun hp => pos (e.trans hp), fun hp => neg (e.trans hp)⟩

/-- Witness for C6 (amended): `POST /v1/attribution/report`, in origin form, goes
to the Tracking API with one attribution event. -/
theorem director_attribution_event_witness :
    HasPrefix (mkURL [] [] (str "/v1/attribution/report") []).String (str "/v1/attribution")
      = true ∧
    (director reachable segmentCDN segmentTrackingAPI none
      (mkRequest (str "POST") (mkURL [] [] (str "/v1/attribution/report") [])
        (str "/v1/attribution/report") (some (wholeBody (str "\x7b\"id\":1\x7d"))))).target
      = Upstream.TrackingAPI ∧
    (director reachable segmentCDN segmentTrackingAPI none
      (mkRequest (str "POST") (mkURL [] [] (str "/v1/attribution/report") [])
        (str "/v1/attribution/report") (some (wholeBody (str "\x7b\"id\":1\x7d"))))).log
      = [str "[INFO]: Got an attribution request: [/v1/attribution/report]\n"] :=
  ⟨by decide,
    ((director_attribution_event reachable segmentCDN segmentTrackingAPI none
      (mkRequest (str "POST") (mkURL [] [] (str "/v1/attribution/report") [])
        (str "/v1/attribution/report") (some (wholeBody (str "\x7b\"id\":1\x7d"))))).1 (by decide)).1,
    by decide⟩

/-- C6 as stated fails: the request line `POST http://example.com/v1/attribution/report`
(absolute form) carries a path that starts with `/v1/attribution`, and the
Director logs no attribution event for it. -/
theorem director_attribution_not_by_path :
    HasPrefix (mkURL (str "http") (str "example.com") (str "/v1/attribution/report") []).Path
      (str "/v1/attribution") = true ∧
    (director reachable segmentCDN segmentTrackingAPI none
      (mkRequest (str "POST")
        (mkURL (str "http") (str "example.com") (str "/v1/attribution/report") [])
        (str "http://example.com/v1/attribution/report")
        (some (wholeBody (str "\x7b\"id\":1\x7d"))))).log = [] := by
  decide

/-! ## Mirroring: the claims -/

/-- C7 fails on the code. With the mirror `http://mirror.example.com` configured,
the GET for `/v1/projects/abc/settings` that the reverse proxy hands over with a
`nil` body gets no mirror request at all: `ioutil.ReadAll` panics at line 55,
before `http.NewRequest` is reached. The POST to `/v1/attribution/report` with
body `{"id":1}` gets the mirror request the claim describes, a POST with that
body and those headers to `http://mirror.example.com/v1/attribution/report`. -/
theorem director_mirror_request_missing :
    (director reachable segmentCDN segmentTrackingAPI (some mirrorExample)
      (mkRequest (str "GET") (mkURL [] [] (str "/v1/projects/abc/settings") [])
        (str "/v1/projects/abc/settings") none)).calls = [] ∧
    (director reachable segmentCDN segmentTrackingAPI (some mirrorExample)
      (mkRequest (str "GET") (mkURL [] [] (str "/v1/projects/abc/settings") [])
        (str "/v1/projects/abc/settings") none)).panicked = true ∧
    mirrorExample.String ++ str "/v1/attribution/report"
      = str "http://mirror.example.com/v1/attribution/report" ∧
    (director reachable segmentCDN segmentTrackingAPI (some mirrorExample)
      (mkRequest (str "POST") (mkURL [] [] (str "/v1/attribution/report") [])
        (str "/v1/attribution/report") (some (wholeBody (str "\x7b\"id\":1\x7d"))))).calls =
      [{ Method := str "POST",
         URL := mkURL (str "http") (str "mirror.example.com")
           (str "/v1/attribution/report") [],
         Header := [(str "Content-Type", [str "application/json"])],
         Body := str "\x7b\"id\":1\x7d" }] := by
  decide

/-- C9: with no mirror target (`mirrorHostURL` is `nil`) the Director hands no
request to `client.Do`, leaves the request body as it found it, unread, and
never consults the client or the network: its result is the same in every
world. That is the case of the proxy `main` builds when the environment
variable `SEGMENT_MIRROR_HOST_ENV` is empty or unset. The primary upstream call
is made afterwards by the reverse proxy's transport, not by the Director. -/
theorem director_without_mirror (client : World) (cdn trackingAPI : URL) (req : Request) :
    (director client cdn trackingAPI none req).calls = [] ∧
    (director client cdn trackingAPI none req).req.Body = req.Body ∧
    (director client cdn trackingAPI none req).panicked = false ∧
    (∀ client2 : World,
      director client2 cdn trackingAPI none req = director client cdn trackingAPI none req) ∧
    (∀ (getenv : GoString → GoString) (parseURL : GoString → URL),
      getenv mirrorHostEnv = [] →
      (main getenv parseURL client req).calls = [] ∧
      (main getenv parseURL client req).req.Body = req.Body ∧
      (main getenv parseURL client req).panicked = false) := by
  refine ⟨?_, ?_, ?_, ?_, ?_⟩
  · rw [director_eq]
  · rw [director_eq]; rfl
  · rw [director_eq]
  · intro client2
    rw [director_eq, director_eq]
  · intro getenv parseURL henv
    simp only [main, NewSegmentReverseProxy, henv, if_true]
    rw [director_eq]
    exact ⟨rfl, rfl, rfl⟩

/-- Witness for C9: `main` with an empty environment, on a GET without a body. -/
theorem director_without_mirror_witness :
    (fun _ => []) mirrorHostEnv = ([] : GoString) ∧
    (main (fun _ => []) (fun s => if s = segmentCDNHost then segmentCDN else segmentTrackingAPI)
      unreachable
      (mkRequest (str "GET") (mkURL [] [] (str "/v1/projects/abc/settings") [])
        (str "/v1/projects/abc/settings") none)).calls = [] :=
  ⟨rfl,
    ((director_without_mirror unreachable segmentCDN segmentTrackingAPI
      (mkRequest (str "GET") (mkURL [] [] (str "/v1/projects/abc/settings") [])
        (str "/v1/projects/abc/settings") none)).2.2.2.2
      (fun _ => []) (fun s => if s = segmentCDNHost then segmentCDN else segmentTrackingAPI)
      rfl).1⟩

/-- C8 fails on the code. A POST with a `Content-Length` whose body delivers
`{"id"` and then breaks off with `unexpected EOF`: without a mirror the Director
leaves these bytes to be read; with a mirror, `copyRequestTo` has consumed them
when it returns the read error at line 57, so the request left for the upstream
has no byte to deliver (and one line is logged). A GET handed over with a `nil`
body: without a mirror the Director returns; with a mirror it ends in the panic
of `ioutil.ReadAll`. -/
theorem director_mirror_not_isolated :
    (director reachable segmentCDN segmentTrackingAPI none
      (mkRequest (str "POST") (mkURL [] [] (str "/v1/attribution/report") [])
        (str "/v1/attribution/report")
        (some (brokenBody (str "\x7b\"id\""))))).req.Body
      = some (brokenBody (str "\x7b\"id\"")) ∧
    (director reachable segmentCDN segmentTrackingAPI (some mirrorExample)
      (mkRequest (str "POST") (mkURL [] [] (str "/v1/attribution/report") [])
        (str "/v1/attribution/report")
        (some (brokenBody (str "\x7b\"id\""))))).req.Body
      = some { data := str "", err := none, later := none } ∧
    (director reachable segmentCDN segmentTrackingAPI (some mirrorExample)
      (mkRequest (str "POST") (mkURL [] [] (str "/v1/attribution/report") [])
        (str "/v1/attribution/report")
        (some (brokenBody (str "\x7b\"id\""))))).log
      = [str "[INFO]: Got an attribution request: [/v1/attribution/report]\n",
         str "ERROR: Failed to mirror request to http://mirror.example.com: unexpected EOF\n"] ∧
    (director reachable segmentCDN segmentTrackingAPI none
      (mkRequest (str "GET") (mkURL [] [] (str "/v1/projects/abc/settings") [])
        (str "/v1/projects/abc/settings") none)).panicked = false ∧
    (director reachable segmentCDN segmentTrackingAPI (some mirrorExample)
      (mkRequest (str "GET") (mkURL [] [] (str "/v1/projects/abc/settings") [])
        (str "/v1/projects/abc/settings") none)).panicked = true := by
  decide

end SegmentProxy
